import Mathlib

/-!
Verification development for the slackbot repository core: the Slack
request-signature verifier (`_verify_slack_request` in `src/slacky/api.py`,
identical to `verify_slack_request` in `src/slacky/utils.py`), the chat-event
dispatch endpoint (`handle_slack_event` in `src/slacky/api.py`), and the
conversation message cache (`_load_message_cache` / `SlackAgent._save_message_cache`
/ `SlackAgent.handle_message` in `src/slacky/agent.py`).

Byte strings are modelled as `List Nat` (each element a byte value), Python
text strings as Lean `String`, wall-clock time as an integer number of seconds,
and Python exceptions as an explicit `Except` error channel.
-/

deriving instance DecidableEq for Except

namespace Slacky

/-- Python exceptions that the modelled code paths can raise. -/
inductive PyErr where
  | valueError
  | unicodeDecodeError
  | assertionError
  | validationError
  | typeError
deriving DecidableEq, Repr

/-! ## SHA-256 (hashlib.sha256), over byte lists -/

/-- Truncate to a 32-bit word. -/
def mask32 (x : Nat) : Nat := x % 4294967296

/-- Right rotation of a 32-bit word. -/
def rotr32 (n x : Nat) : Nat :=
  mask32 (Nat.lor (Nat.shiftRight x n) (Nat.shiftLeft x (32 - n)))

/-- Bitwise complement of a 32-bit word. -/
def not32 (x : Nat) : Nat := Nat.xor x 4294967295

/-- SHA-256 Ch function. -/
def shaCh (x y z : Nat) : Nat := Nat.xor (Nat.land x y) (Nat.land (not32 x) z)

/-- SHA-256 Maj function. -/
def shaMaj (x y z : Nat) : Nat :=
  Nat.xor (Nat.xor (Nat.land x y) (Nat.land x z)) (Nat.land y z)

/-- SHA-256 big sigma 0. -/
def bsig0 (x : Nat) : Nat := Nat.xor (Nat.xor (rotr32 2 x) (rotr32 13 x)) (rotr32 22 x)

/-- SHA-256 big sigma 1. -/
def bsig1 (x : Nat) : Nat := Nat.xor (Nat.xor (rotr32 6 x) (rotr32 11 x)) (rotr32 25 x)

/-- SHA-256 small sigma 0. -/
def ssig0 (x : Nat) : Nat :=
  Nat.xor (Nat.xor (rotr32 7 x) (rotr32 18 x)) (Nat.shiftRight x 3)

/-- SHA-256 small sigma 1. -/
def ssig1 (x : Nat) : Nat :=
  Nat.xor (Nat.xor (rotr32 17 x) (rotr32 19 x)) (Nat.shiftRight x 10)

/-- The 64 SHA-256 round constants. -/
def sha256K : List Nat :=
  [1116352408, 1899447441, 3049323471, 3921009573, 961987163, 1508970993,
   2453635748, 2870763221, 3624381080, 310598401, 607225278, 1426881987,
   1925078388, 2162078206, 2614888103, 3248222580, 3835390401, 4022224774,
   264347078, 604807628, 770255983, 1249150122, 1555081692, 1996064986,
   2554220882, 2821834349, 2952996808, 3210313671, 3336571891, 3584528711,
   113926993, 338241895, 666307205, 773529912, 1294757372, 1396182291,
   1695183700, 1986661051, 2177026350, 2456956037, 2730485921, 2820302411,
   3259730800, 3345764771, 3516065817, 3600352804, 4094571909, 275423344,
   430227734, 506948616, 659060556, 883997877, 958139571, 1322822218,
   1537002063, 1747873779, 1955562222, 2024104815, 2227730452, 2361852424,
   2428436474, 2756734187, 3204031479, 3329325298]

/-- The SHA-256 initial hash state. -/
def sha256H0 : List Nat :=
  [1779033703, 3144134277, 1013904242, 2773480762, 1359893119, 2600822924,
   528734635, 1541459225]

/-- Big-endian byte decomposition of a value into `n` bytes. -/
def beBytes (n v : Nat) : List Nat :=
  (List.range n).map (fun i => (Nat.shiftRight v (8 * (n - 1 - i))) % 256)

/-- Split a list into chunks of `n` elements (`n > 0`); a trailing short
chunk keeps the remaining elements. -/
def chunksOf (n : Nat) (l : List α) : List (List α) :=
  match n, l with
  | 0, _ => []
  | _, [] => []
  | m + 1, x :: xs => (x :: xs.take m) :: chunksOf (m + 1) (xs.drop m)
termination_by l.length
decreasing_by
  simp only [List.length_drop, List.length_cons]
  omega

/-- SHA-256 message padding: append `0x80`, zero bytes to 56 mod 64, then the
bit length as 8 big-endian bytes. -/
def sha256Pad (msg : List Nat) : List Nat :=
  msg ++ 128 :: List.replicate ((120 - ((msg.length + 1) % 64)) % 64) 0
      ++ beBytes 8 (8 * msg.length)

/-- Interpret 4 bytes as a big-endian 32-bit word. -/
def wordOfBytes (bs : List Nat) : Nat :=
  bs.foldl (fun acc b => acc * 256 + b) 0

/-- The 64-entry SHA-256 message schedule from a 16-word block. -/
def msgSchedule (block : List Nat) : Array Nat :=
  (List.range 48).foldl
    (fun w i =>
      w.push (mask32 (ssig1 (w.getD (i + 14) 0) + w.getD (i + 9) 0
        + ssig0 (w.getD (i + 1) 0) + w.getD i 0)))
    block.toArray

/-- One SHA-256 block compression: fold the 64 rounds over the 8-word state
and add the result back into the incoming state. -/
def compressBlock (h : List Nat) (block : List Nat) : List Nat :=
  let w := msgSchedule block
  let final := (List.range 64).foldl
    (fun st i =>
      match st with
      | [a, b, c, d, e, f, g, hh] =>
        let t1 := mask32 (hh + bsig1 e + shaCh e f g + sha256K.getD i 0 + w.getD i 0)
        let t2 := mask32 (bsig0 a + shaMaj a b c)
        [mask32 (t1 + t2), a, b, c, mask32 (d + t1), e, f, g]
      | other => other)
    h
  List.zipWith (fun x y => mask32 (x + y)) h final

/-- SHA-256 of a byte list, as the 32 digest bytes. -/
def sha256 (msg : List Nat) : List Nat :=
  let blocks := chunksOf 64 (sha256Pad msg)
  let hFinal := blocks.foldl (fun h b => compressBlock h ((chunksOf 4 b).map wordOfBytes)) sha256H0
  (hFinal.map (beBytes 4)).flatten

/-! ## HMAC-SHA256 (hmac.new(key, msg, hashlib.sha256)) -/

/-- HMAC-SHA256 of a message under a key, as the 32 digest bytes. -/
def hmacSha256 (key msg : List Nat) : List Nat :=
  let k0 := if 64 < key.length then sha256 key else key
  let kPad := k0 ++ List.replicate (64 - k0.length) 0
  let ipad := kPad.map (fun b => Nat.xor b 54)
  let opad := kPad.map (fun b => Nat.xor b 92)
  sha256 (opad ++ sha256 (ipad ++ msg))

/-- Lower-case hex character for a value below 16. -/
def hexChar (n : Nat) : Char :=
  if n < 10 then Char.ofNat (48 + n) else Char.ofNat (87 + n)

/-- Lower-case hex rendering of a byte list (`.hexdigest()`). -/
def hexDigest (bs : List Nat) : String :=
  String.mk ((bs.map (fun b => [hexChar (b / 16), hexChar (b % 16)])).flatten)

/-! ## UTF-8 (str.encode / bytes.decode, strict) -/

/-- UTF-8 encoding of one Unicode code point, as bytes. -/
def utf8EncodeChar (cp : Nat) : List Nat :=
  if cp < 128 then [cp]
  else if cp < 2048 then [192 + cp / 64, 128 + cp % 64]
  else if cp < 65536 then [224 + cp / 4096, 128 + cp / 64 % 64, 128 + cp % 64]
  else [240 + cp / 262144, 128 + cp / 4096 % 64, 128 + cp / 64 % 64, 128 + cp % 64]

/-- UTF-8 encoding of a code-point sequence. -/
def utf8Encode (cps : List Nat) : List Nat :=
  (cps.map utf8EncodeChar).flatten

/-- UTF-8 bytes of a string (`str.encode()`). -/
def strBytes (s : String) : List Nat :=
  utf8Encode (s.data.map Char.toNat)

/-- Tail of a two-byte UTF-8 sequence after lead byte `b1`: one continuation
byte.  The lead range `[0xC2, 0xDF]` already excludes overlong forms.  (The
decoders here accept exactly the valid shortest-form, non-surrogate,
at-most-`U+10FFFF` sequences that Python's strict `bytes.decode()` accepts.) -/
def utf8Dec2 (b1 : Nat) (rest1 : List Nat) : Option (Nat × List Nat) :=
  match rest1 with
  | b2 :: rest2 =>
    if 128 ≤ b2 ∧ b2 ≤ 191 then some ((b1 - 192) * 64 + (b2 - 128), rest2)
    else none
  | [] => none

/-- Tail of a three-byte UTF-8 sequence after lead byte `b1`: two
continuation bytes, with the decoded value required to be in the canonical
three-byte range and not a surrogate. -/
def utf8Dec3 (b1 : Nat) (rest1 : List Nat) : Option (Nat × List Nat) :=
  match rest1 with
  | b2 :: b3 :: rest3 =>
    if (128 ≤ b2 ∧ b2 ≤ 191) ∧ (128 ≤ b3 ∧ b3 ≤ 191)
        ∧ 2048 ≤ (b1 - 224) * 4096 + (b2 - 128) * 64 + (b3 - 128)
        ∧ ¬(55296 ≤ (b1 - 224) * 4096 + (b2 - 128) * 64 + (b3 - 128)
            ∧ (b1 - 224) * 4096 + (b2 - 128) * 64 + (b3 - 128) ≤ 57343) then
      some ((b1 - 224) * 4096 + (b2 - 128) * 64 + (b3 - 128), rest3)
    else none
  | _ => none

/-- Tail of a four-byte UTF-8 sequence after lead byte `b1`: three
continuation bytes, with the decoded value required to be in the canonical
four-byte range up to `U+10FFFF`. -/
def utf8Dec4 (b1 : Nat) (rest1 : List Nat) : Option (Nat × List Nat) :=
  match rest1 with
  | b2 :: b3 :: b4 :: rest4 =>
    if (128 ≤ b2 ∧ b2 ≤ 191) ∧ (128 ≤ b3 ∧ b3 ≤ 191) ∧ (128 ≤ b4 ∧ b4 ≤ 191)
        ∧ 65536 ≤ (b1 - 240) * 262144 + (b2 - 128) * 4096 + (b3 - 128) * 64 + (b4 - 128)
        ∧ (b1 - 240) * 262144 + (b2 - 128) * 4096 + (b3 - 128) * 64 + (b4 - 128)
          ≤ 1114111 then
      some ((b1 - 240) * 262144 + (b2 - 128) * 4096 + (b3 - 128) * 64 + (b4 - 128), rest4)
    else none
  | _ => none

/-- Decode one code point: the lead byte picks the sequence length (ASCII,
or the two/three/four-byte lead ranges), the matching tail decoder checks
the rest. -/
def utf8DecodeOne (bs : List Nat) : Option (Nat × List Nat) :=
  match bs with
  | [] => none
  | b1 :: rest1 =>
    if b1 < 128 then some (b1, rest1)
    else if 194 ≤ b1 ∧ b1 ≤ 223 then utf8Dec2 b1 rest1
    else if 224 ≤ b1 ∧ b1 ≤ 239 then utf8Dec3 b1 rest1
    else if 240 ≤ b1 ∧ b1 ≤ 244 then utf8Dec4 b1 rest1
    else none

/-- Fuelled driver for `utf8Decode`; `utf8DecodeOne` consumes at least one
byte per step, so fuel equal to the byte count always suffices. -/
def utf8DecodeGo (fuel : Nat) (bs : List Nat) : Option (List Nat) :=
  match fuel, bs with
  | _, [] => some []
  | 0, _ :: _ => none
  | fuel2 + 1, b :: rest =>
    match utf8DecodeOne (b :: rest) with
    | none => none
    | some (cp, rest2) => (utf8DecodeGo fuel2 rest2).map (cp :: ·)

/-- Strict UTF-8 decoding of a byte list to its code points; `none` models a
raised `UnicodeDecodeError`. -/
def utf8Decode (bs : List Nat) : Option (List Nat) :=
  utf8DecodeGo bs.length bs

/-! ## Python int() over strings -/

/-- Whitespace characters stripped by Python's `int()`. -/
def isPyWs (c : Char) : Bool :=
  c = ' ' ∨ c = Char.ofNat 9 ∨ c = Char.ofNat 10 ∨ c = Char.ofNat 13
    ∨ c = Char.ofNat 11 ∨ c = Char.ofNat 12

/-- Decimal value of an ASCII digit. -/
def digitVal (c : Char) : Nat := c.toNat - 48

/-- Parse the digit tail of a decimal literal: digits, with single
underscores allowed only between digits (CPython's grouping rule). -/
def pyDigitsGo (acc : Nat) (l : List Char) : Option Nat :=
  match l with
  | [] => some acc
  | c :: rest =>
    if c = '_' then
      match rest with
      | c2 :: rest2 =>
        if c2.isDigit then pyDigitsGo (10 * acc + digitVal c2) rest2 else none
      | [] => none
    else if c.isDigit then pyDigitsGo (10 * acc + digitVal c) rest
    else none

/-- Parse a nonempty unsigned decimal literal. -/
def pyDigits (l : List Char) : Option Nat :=
  match l with
  | c :: rest => if c.isDigit then pyDigitsGo (digitVal c) rest else none
  | [] => none

/-- Python `int(s)` for a decimal string: strip whitespace, optional sign,
then a grouped digit run; `none` models a raised `ValueError` (so `int("")`
on a missing header is `none`). -/
def pyInt (s : String) : Option Int :=
  let l := ((s.data.dropWhile isPyWs).reverse.dropWhile isPyWs).reverse
  match l with
  | '+' :: rest => (pyDigits rest).map Int.ofNat
  | '-' :: rest => (pyDigits rest).map (fun n => -(n : Int))
  | rest => (pyDigits rest).map Int.ofNat

/-! ## Signature verification (api._verify_slack_request, utils.verify_slack_request) -/

/-- The signature base string bytes `"v0:" + timestamp + ":" + decoded-body`,
re-encoded to UTF-8 as the source's f-string `.encode()` does. -/
def sigBaseBytes (timestamp : String) (bodyCps : List Nat) : List Nat :=
  strBytes ("v0:" ++ timestamp ++ ":") ++ utf8Encode bodyCps

/-- The signature the verifier computes for a decoded body:
`"v0=" + HMAC-SHA256(secret, base).hexdigest()`. -/
def my_signature (secret : List Nat) (timestamp : String) (bodyCps : List Nat) : String :=
  "v0=" ++ hexDigest (hmacSha256 secret (sigBaseBytes timestamp bodyCps))

/-- The signature Slack would supply for raw body bytes: hex-encoded
`HMAC-SHA256(secret, "v0:" + timestamp + ":" + body)` prefixed with `"v0="`. -/
def expected_signature (timestamp : String) (body secret : List Nat) : String :=
  "v0=" ++ hexDigest (hmacSha256 secret (strBytes ("v0:" ++ timestamp ++ ":") ++ body))

/-- Whether every character of a string is ASCII. -/
def asciiStr (s : String) : Bool := s.data.all (fun c => c.toNat < 128)

/-- `hmac.compare_digest` on two `str` arguments: constant-time equality,
which agrees with plain string equality as a function — but CPython raises
`TypeError` when either side contains a non-ASCII character, which is
reachable here because the signature header is decoded as latin-1. -/
def compare_digest (a b : String) : Except PyErr Bool :=
  if asciiStr a && asciiStr b then .ok (a == b) else .error .typeError

/-- `_verify_slack_request` from `src/slacky/api.py` (the copy in
`src/slacky/utils.py` is line-for-line identical): parse the timestamp header
with `int` (raising `ValueError` on failure), reject timestamps more than
`60 * 5` seconds from now, decode the body as UTF-8 (raising
`UnicodeDecodeError` on failure), then compare the recomputed signature
against the header signature with `hmac.compare_digest` (which raises
`TypeError` on a non-ASCII signature header). -/
def verify_slack_request (now : Int) (timestamp signature : String)
    (body secret : List Nat) : Except PyErr Bool :=
  match pyInt timestamp with
  | none => .error .valueError
  | some t =>
    if 60 * 5 < (now - t).natAbs then .ok false
    else
      match utf8Decode body with
      | none => .error .unicodeDecodeError
      | some cps => compare_digest (my_signature secret timestamp cps) signature

/-! ## The chat endpoint (api.handle_slack_event), after signature verification -/

/-- The parsed request body as the `SlackEvent` pydantic model: a required
`type`, an optional nested `event` object (modelled as a key-value list of its
string fields), and an optional `challenge`. -/
structure SlackEvent where
  type : String
  event : Option (List (String × String))
  challenge : Option String

/-- `dict.get`: first value bound to a key, `none` when absent. -/
def getKey (l : List (String × α)) (k : String) : Option α :=
  match l with
  | [] => none
  | (k2, v) :: rest => if k2 = k then some v else getKey rest k

/-- Python's `a or b` on two `.get` results, where `None` and the empty
string are falsy: keep `a` when it is a nonempty string, otherwise yield `b`. -/
def pyOrStr (a b : Option String) : Option String :=
  match a with
  | some s => if s = "" then b else some s
  | none => b

/-- A background hand-off performed by the endpoint:
`asyncio.ensure_future(handle_message(message, thread_ts, channel))`. -/
inductive Dispatch where
  | handleMessage (message thread_ts channel : String)
deriving DecidableEq, Repr

/-- The endpoint's JSON response: the handshake echo `\x7b"challenge": c\x7d`
or the acknowledgment `\x7b"ok": true\x7d`. -/
inductive ChatResponse where
  | challenge (c : Option String)
  | ack
deriving DecidableEq, Repr

/-- `handle_slack_event` from `src/slacky/api.py`, after the signature check
has passed and the body has parsed into a `SlackEvent`: echo the challenge on
`url_verification`; on an `event_callback` carrying an `app_mention`, read
`channel`, `thread_ts or ts` and `text`, assert the first two are not `None`
(an `AssertionError` escapes the handler), background a `handle_message`
dispatch, and answer `ok`; anything else is acknowledged with no dispatch. -/
def handle_slack_event (ev : SlackEvent) : Except PyErr (ChatResponse × List Dispatch) :=
  if ev.type = "url_verification" then
    .ok (.challenge ev.challenge, [])
  else
    match ev.event with
    | none => .ok (.ack, [])
    | some e =>
      if ev.type = "event_callback" ∧ e ≠ [] then
        if getKey e "type" = some "app_mention" then
          let channel := getKey e "channel"
          let thread_ts := pyOrStr (getKey e "thread_ts") (getKey e "ts")
          let text := (getKey e "text").getD ""
          match thread_ts with
          | none => .error .assertionError
          | some tts =>
            match channel with
            | none => .error .assertionError
            | some ch => .ok (.ack, [.handleMessage text tts ch])
        else .ok (.ack, [])
      else .ok (.ack, [])

/-! ## The conversation message cache (agent._load_message_cache,
SlackAgent._save_message_cache, SlackAgent.handle_message) -/

/-- One cached conversation message, a role/content record (the shape the
spec gives for the persisted `ModelMessage` entries). -/
structure Message where
  role : String
  content : String
deriving DecidableEq, Repr

/-- The in-memory message cache: the `dict[str, list[ModelMessage]]` mapping
thread timestamps to ordered message histories, as an insertion-ordered
key-value list. -/
abbrev Cache : Type := List (String × List Message)

/-- Modelled from the spec: the serialized form of the message mapping.  The
source serializes with pydantic's `TypeAdapter.dump_json` /
`validate_json` (an external library, not part of this repository); the spec
fixes only that the format is an implementation detail that must round-trip
exactly.  Modelled as a flat cell stream: each conversation contributes a
`"k"` marker cell and its key cell, then a `"m"` marker cell plus role and
content cells per message. -/
def msgCells (v : List Message) : List String :=
  (v.map (fun msg => ["m", msg.role, msg.content])).flatten

/-- The cell stream of the whole mapping (see `msgCells`). -/
def cacheCells (m : Cache) : List String :=
  match m with
  | [] => []
  | (k, v) :: rest => "k" :: k :: msgCells v ++ cacheCells rest

/-- Escape a cell's characters so the cell separator `;` can be recognized
unambiguously: prefix `;` and the escape `\` with `\`. -/
def escChars (cell : List Char) : List Char :=
  (cell.map (fun c => if c = ';' ∨ c = '\\' then ['\\', c] else [c])).flatten

/-- Join escaped cells with the `;` separator into the serialized text. -/
def joinEsc (cells : List (List Char)) : List Char :=
  match cells with
  | [] => []
  | [c] => escChars c
  | c :: rest => escChars c ++ ';' :: joinEsc rest

/-- Split the serialized text back into cells, undoing the escaping, one
character per step; `esc` records that the previous character was an
unconsumed escape, and a dangling escape at the end yields `none`. -/
def splitGo (esc : Bool) (acc : List Char) (l : List Char) : Option (List (List Char)) :=
  match l with
  | [] => if esc then none else some [acc.reverse]
  | c :: cs =>
    if esc then splitGo false (c :: acc) cs
    else if c = '\\' then splitGo true acc cs
    else if c = ';' then (splitGo false [] cs).map (acc.reverse :: ·)
    else splitGo false (c :: acc) cs

/-- Split serialized text into its unescaped cells. -/
def splitEsc (l : List Char) : Option (List (List Char)) := splitGo false [] l

/-- Parser state for the cell stream: at the top level between conversations,
expecting a key cell, inside a conversation's message list, or expecting the
role / content cell of a message. -/
inductive DecSt where
  | top
  | wantKey
  | inEntry (k : String) (acc : List Message)
  | wantRole (k : String) (acc : List Message)
  | wantContent (k : String) (acc : List Message) (r : String)

/-- Decode the cell stream back into the mapping, one cell per step: a `"k"`
marker opens a conversation whose key is the next cell, and each `"m"`
marker is followed by a role cell and a content cell. -/
def cellsDecode (st : DecSt) (cells : List String) : Option Cache :=
  match cells with
  | [] =>
    match st with
    | .top => some []
    | .inEntry k acc => some [(k, acc.reverse)]
    | _ => none
  | c :: cs =>
    match st with
    | .top => if c = "k" then cellsDecode .wantKey cs else none
    | .wantKey => cellsDecode (.inEntry c []) cs
    | .inEntry k acc =>
      if c = "m" then cellsDecode (.wantRole k acc) cs
      else if c = "k" then (cellsDecode .wantKey cs).map ((k, acc.reverse) :: ·)
      else none
    | .wantRole k acc => cellsDecode (.wantContent k acc c) cs
    | .wantContent k acc r => cellsDecode (.inEntry k (⟨r, c⟩ :: acc)) cs

/-- Serialize the whole mapping to the cache file's text
(`MessageHistoryCacheAdapter.dump_json`, modelled from the spec). -/
def dump_cache (m : Cache) : List Char :=
  joinEsc ((cacheCells m).map String.data)

/-- Parse the cache file's text back into a mapping
(`MessageHistoryCacheAdapter.validate_json`, modelled from the spec). -/
def validate_cache (text : List Char) : Option Cache :=
  (splitEsc text).bind (fun cells => cellsDecode .top (cells.map String.mk))

/-- `_load_message_cache` from `src/slacky/agent.py`: an empty cache file
yields the empty mapping; otherwise the contents are validated, and a
validation failure raises. -/
def load_message_cache (text : List Char) : Except PyErr Cache :=
  if text = [] then .ok []
  else
    match validate_cache text with
    | some m => .ok m
    | none => .error .validationError

/-- `SlackAgent._save_message_cache`: `Path.write_bytes` of the serialized
mapping — a plain open-for-write (which first truncates the file) followed by
a write, with no temporary file or rename. -/
def save_message_cache (m : Cache) : List Char := dump_cache m

/-- The durable cache-file contents observable if the process crashes at any
point during `save_message_cache` over prior contents `old`: the untouched
`old` before the file is opened, and every prefix of the new contents from
the moment the truncating open has run (the empty prefix is the state right
after truncation). -/
def saveCrashStates (old : List Char) (m : Cache) : List (List Char) :=
  old :: (List.range ((save_message_cache m).length + 1)).map
    (fun k => (save_message_cache m).take k)

/-! ## Concurrent appends (SlackAgent.handle_message, two racing calls) -/

/-- Replace the value bound to `k` (Python `dict[k] = v` on a present key),
appending the binding if absent. -/
def setKey (l : List (String × List Message)) (k : String) (v : List Message) :
    List (String × List Message) :=
  match l with
  | [] => [(k, v)]
  | (k2, w) :: rest => if k2 = k then (k, v) :: rest else (k2, w) :: setKey rest k v

/-- The shared state of the agent process: the in-memory mapping
`self._message_history` and the durable cache file. -/
structure AgentState where
  history : Cache
  file : List Char
deriving DecidableEq

/-- One call of `SlackAgent.handle_message` as its shared-state steps.
`read` is the initial `self._message_history.get(thread_ts, [])` (its result
feeds only the agent run); `update` is the block after the awaits — ensure
the key exists, `extend` the stored list in place with the call's new
messages, and synchronously rewrite the cache file — which contains no
suspension point and so runs atomically under the event loop. -/
inductive TaskStep where
  | read
  | update (newMessages : List Message)

/-- Apply one step of a `handle_message` call for conversation `ts`. -/
def applyStep (ts : String) (st : AgentState) : TaskStep → AgentState
  | .read => st
  | .update newMessages =>
    let cur := (getKey st.history ts).getD []
    let h2 := setKey st.history ts (cur ++ newMessages)
    { history := h2, file := save_message_cache h2 }

/-- Run two in-flight `handle_message` calls under a scheduler: `true` picks
the next pending step of the first call, `false` of the second.  Schedule
entries for an exhausted call are ignored. -/
def runSched (ts : String) (sched : List Bool)
    (ta tb : List TaskStep) (st : AgentState) : AgentState :=
  match sched with
  | [] => st
  | pick :: rest =>
    match pick, ta, tb with
    | true, s :: ss, _ => runSched ts rest ss tb (applyStep ts st s)
    | false, _, s :: ss => runSched ts rest ta ss (applyStep ts st s)
    | _, _, _ => runSched ts rest ta tb st

/-- The step list of one `handle_message` call appending `msgs`. -/
def taskSteps (msgs : List Message) : List TaskStep :=
  [.read, .update msgs]

/-- All six interleavings of two two-step calls (a schedule entry `true`
runs the first call's next step, `false` the second's). -/
def schedulesAB : List (List Bool) :=
  [[true, true, false, false], [true, false, true, false],
   [true, false, false, true], [false, true, true, false],
   [false, true, false, true], [false, false, true, true]]


/-! ## Helper lemmas: UTF-8 round trip -/

/-- One-byte branch of the encoder. -/
theorem utf8EncodeChar_one {cp : Nat} (h : cp < 128) : utf8EncodeChar cp = [cp] := by
  rw [utf8EncodeChar, if_pos h]

/-- Two-byte branch of the encoder. -/
theorem utf8EncodeChar_two {cp : Nat} (h1 : 128 ≤ cp) (h2 : cp < 2048) :
    utf8EncodeChar cp = [192 + cp / 64, 128 + cp % 64] := by
  rw [utf8EncodeChar, if_neg (by omega), if_pos h2]

/-- Three-byte branch of the encoder. -/
theorem utf8EncodeChar_three {cp : Nat} (h1 : 2048 ≤ cp) (h2 : cp < 65536) :
    utf8EncodeChar cp = [224 + cp / 4096, 128 + cp / 64 % 64, 128 + cp % 64] := by
  rw [utf8EncodeChar, if_neg (by omega), if_neg (by omega), if_pos h2]

/-- Four-byte branch of the encoder. -/
theorem utf8EncodeChar_four {cp : Nat} (h1 : 65536 ≤ cp) :
    utf8EncodeChar cp = [240 + cp / 262144, 128 + cp / 4096 % 64, 128 + cp / 64 % 64,
      128 + cp % 64] := by
  rw [utf8EncodeChar, if_neg (by omega), if_neg (by omega), if_neg (by omega)]

/-- A decoded two-byte tail re-encodes to the consumed bytes. -/
theorem utf8Dec2_sound {b1 cp : Nat} {rest1 rest : List Nat}
    (hb : 194 ≤ b1 ∧ b1 ≤ 223) (h : utf8Dec2 b1 rest1 = some (cp, rest)) :
    utf8EncodeChar cp ++ rest = b1 :: rest1 := by
  rcases rest1 with _ | ⟨b2, rest2⟩
  · simp [utf8Dec2] at h
  · rw [utf8Dec2] at h
    split at h
    · rename_i hb2
      obtain ⟨rfl, rfl⟩ : (b1 - 192) * 64 + (b2 - 128) = cp ∧ rest2 = rest := by
        simpa using h
      rw [utf8EncodeChar_two (by omega) (by omega)]
      simp only [List.cons_append, List.nil_append, List.cons.injEq, and_true, true_and]
      omega
    · simp at h

/-- A decoded three-byte tail re-encodes to the consumed bytes. -/
theorem utf8Dec3_sound {b1 cp : Nat} {rest1 rest : List Nat}
    (hb : 224 ≤ b1 ∧ b1 ≤ 239) (h : utf8Dec3 b1 rest1 = some (cp, rest)) :
    utf8EncodeChar cp ++ rest = b1 :: rest1 := by
  rcases rest1 with _ | ⟨b2, _ | ⟨b3, rest3⟩⟩
  · simp [utf8Dec3] at h
  · simp [utf8Dec3] at h
  · rw [utf8Dec3] at h
    split at h
    · rename_i hcond
      obtain ⟨rfl, rfl⟩ :
          (b1 - 224) * 4096 + (b2 - 128) * 64 + (b3 - 128) = cp ∧ rest3 = rest := by
        simpa using h
      rw [utf8EncodeChar_three (by omega) (by omega)]
      simp only [List.cons_append, List.nil_append, List.cons.injEq, and_true, true_and]
      omega
    · simp at h

/-- A decoded four-byte tail re-encodes to the consumed bytes. -/
theorem utf8Dec4_sound {b1 cp : Nat} {rest1 rest : List Nat}
    (hb : 240 ≤ b1 ∧ b1 ≤ 244) (h : utf8Dec4 b1 rest1 = some (cp, rest)) :
    utf8EncodeChar cp ++ rest = b1 :: rest1 := by
  rcases rest1 with _ | ⟨b2, _ | ⟨b3, _ | ⟨b4, rest4⟩⟩⟩
  · simp [utf8Dec4] at h
  · simp [utf8Dec4] at h
  · simp [utf8Dec4] at h
  · rw [utf8Dec4] at h
    split at h
    · rename_i hcond
      obtain ⟨rfl, rfl⟩ :
          (b1 - 240) * 262144 + (b2 - 128) * 4096 + (b3 - 128) * 64 + (b4 - 128) = cp
            ∧ rest4 = rest := by
        simpa using h
      rw [utf8EncodeChar_four (by omega)]
      simp only [List.cons_append, List.nil_append, List.cons.injEq, and_true, true_and]
      omega
    · simp at h

/-- A decoded code point re-encodes to the bytes the decoder consumed. -/
theorem utf8DecodeOne_sound {bs rest : List Nat} {cp : Nat}
    (h : utf8DecodeOne bs = some (cp, rest)) : utf8EncodeChar cp ++ rest = bs := by
  rcases bs with _ | ⟨b1, rest1⟩
  · simp [utf8DecodeOne] at h
  · rw [utf8DecodeOne] at h
    split at h
    · rename_i hb
      obtain ⟨rfl, rfl⟩ : b1 = cp ∧ rest1 = rest := by simpa using h
      rw [utf8EncodeChar_one hb]
      rfl
    split at h
    · exact utf8Dec2_sound (by assumption) h
    split at h
    · exact utf8Dec3_sound (by assumption) h
    split at h
    · exact utf8Dec4_sound (by assumption) h
    · simp at h

/-- Re-encoding a successfully decoded byte list restores the original bytes:
the strict decoder accepts only the canonical encoding of each code point. -/
theorem utf8Encode_of_decodeGo : ∀ (fuel : Nat) {bs cps : List Nat},
    utf8DecodeGo fuel bs = some cps → utf8Encode cps = bs := by
  intro fuel
  induction fuel with
  | zero =>
    intro bs cps h
    rcases bs with _ | ⟨b, rest⟩
    · obtain rfl : cps = [] := by simpa [utf8DecodeGo] using h.symm
      rfl
    · simp [utf8DecodeGo] at h
  | succ fuel2 ih =>
    intro bs cps h
    rcases bs with _ | ⟨b, rest⟩
    · obtain rfl : cps = [] := by simpa [utf8DecodeGo] using h.symm
      rfl
    · rw [utf8DecodeGo] at h
      rcases hone : utf8DecodeOne (b :: rest) with _ | ⟨cp, rest2⟩
      · rw [hone] at h
        simp at h
      · rw [hone] at h
        simp only [Option.map_eq_some'] at h
        obtain ⟨cps2, hdec, rfl⟩ := h
        have henc := utf8DecodeOne_sound hone
        calc utf8Encode (cp :: cps2)
            = utf8EncodeChar cp ++ utf8Encode cps2 := by
              simp [utf8Encode]
          _ = utf8EncodeChar cp ++ rest2 := by rw [ih hdec]
          _ = b :: rest := henc

/-- Re-encoding a successfully decoded byte list restores the original
bytes. -/
theorem utf8Encode_of_decode {bs cps : List Nat} (h : utf8Decode bs = some cps) :
    utf8Encode cps = bs :=
  utf8Encode_of_decodeGo bs.length h

/-! ## Helper lemmas: cache serialization round trip -/

/-- Splitting after an escaped cell body continues with the cell's
characters accumulated. -/
theorem splitGo_escChars (cell : List Char) : ∀ (acc tail : List Char),
    splitGo false acc (escChars cell ++ tail)
      = splitGo false (cell.reverse ++ acc) tail := by
  induction cell with
  | nil => intro acc tail; simp [escChars]
  | cons c cs ih =>
    intro acc tail
    by_cases hc : c = ';' ∨ c = '\\'
    · rw [show escChars (c :: cs) = '\\' :: c :: escChars cs by
        simp [escChars, hc]]
      rw [List.cons_append, List.cons_append, splitGo, if_neg (by simp),
        if_pos rfl, splitGo]
      simp only [if_pos]
      rw [ih (c :: acc) tail]
      simp
    · push_neg at hc
      rw [show escChars (c :: cs) = c :: escChars cs by
        simp [escChars, hc.1, hc.2]]
      rw [List.cons_append, splitGo, if_neg (by simp), if_neg hc.2, if_neg hc.1]
      rw [ih (c :: acc) tail]
      simp

/-- Splitting the join of one escaped cell and a separator peels off that
cell. -/
theorem splitGo_cell_sep (cell : List Char) (tail : List Char) :
    splitGo false [] (escChars cell ++ ';' :: tail)
      = (splitGo false [] tail).map (cell :: ·) := by
  rw [splitGo_escChars cell [] (';' :: tail)]
  rw [splitGo, if_neg (by simp), if_neg (by simp), if_pos rfl]
  simp

/-- Splitting one escaped cell at the end of input yields that cell. -/
theorem splitGo_cell_end (cell : List Char) :
    splitGo false [] (escChars cell) = some [cell] := by
  have := splitGo_escChars cell [] []
  rw [List.append_nil] at this
  rw [this, splitGo, if_neg (by simp)]
  simp

/-- Splitting undoes joining for any nonempty cell list. -/
theorem splitEsc_joinEsc : ∀ (cells : List (List Char)), cells ≠ [] →
    splitEsc (joinEsc cells) = some cells := by
  intro cells
  induction cells with
  | nil => intro h; exact absurd rfl h
  | cons c rest ih =>
    intro _
    rcases rest with _ | ⟨c2, rest2⟩
    · rw [show joinEsc [c] = escChars c from rfl]
      exact splitGo_cell_end c
    · rw [show joinEsc (c :: c2 :: rest2) = escChars c ++ ';' :: joinEsc (c2 :: rest2)
        from rfl]
      unfold splitEsc
      rw [splitGo_cell_sep]
      rw [show splitGo false [] (joinEsc (c2 :: rest2)) = splitEsc (joinEsc (c2 :: rest2))
        from rfl]
      rw [ih (by simp)]
      rfl

/-- Decoding steps through a message block, accumulating the messages. -/
theorem cellsDecode_msgCells : ∀ (v : List Message) (k : String) (acc : List Message)
    (cs : List String), cellsDecode (.inEntry k acc) (msgCells v ++ cs)
      = cellsDecode (.inEntry k (v.reverse ++ acc)) cs := by
  intro v
  induction v with
  | nil => intro k acc cs; simp [msgCells]
  | cons m ms ih =>
    intro k acc cs
    rw [show msgCells (m :: ms) = "m" :: m.role :: m.content :: msgCells ms from rfl]
    simp only [List.cons_append]
    rw [show cellsDecode (.inEntry k acc)
          ("m" :: (m.role :: m.content :: (msgCells ms ++ cs)))
        = cellsDecode (.inEntry k (m :: acc)) (msgCells ms ++ cs) by
      simp [cellsDecode]]
    rw [ih k (m :: acc) cs]
    rw [List.reverse_cons, List.append_assoc, List.singleton_append]

/-- Decoding the serialized cell stream restores the mapping. -/
theorem cellsDecode_cacheCells : ∀ (m : Cache), cellsDecode .top (cacheCells m) = some m := by
  intro m
  induction m with
  | nil => rfl
  | cons e rest ih =>
    obtain ⟨k, v⟩ := e
    rw [show cacheCells ((k, v) :: rest) = "k" :: k :: (msgCells v ++ cacheCells rest)
      from rfl]
    rw [show cellsDecode .top ("k" :: k :: (msgCells v ++ cacheCells rest))
        = cellsDecode (.inEntry k []) (msgCells v ++ cacheCells rest) by
      simp [cellsDecode]]
    rw [cellsDecode_msgCells v k [] (cacheCells rest)]
    rcases rest with _ | ⟨⟨k2, v2⟩, rest2⟩
    · rw [show cacheCells [] = [] from rfl]
      rw [cellsDecode]
      simp
    · have h2 : cellsDecode (.inEntry k2 []) (msgCells v2 ++ cacheCells rest2)
          = some ((k2, v2) :: rest2) := by
        have h3 := ih
        rw [show cacheCells ((k2, v2) :: rest2)
            = "k" :: k2 :: (msgCells v2 ++ cacheCells rest2) from rfl] at h3
        rw [show cellsDecode .top ("k" :: k2 :: (msgCells v2 ++ cacheCells rest2))
            = cellsDecode (.inEntry k2 []) (msgCells v2 ++ cacheCells rest2) by
          simp [cellsDecode]] at h3
        exact h3
      rw [show cacheCells ((k2, v2) :: rest2)
          = "k" :: k2 :: (msgCells v2 ++ cacheCells rest2) from rfl]
      rw [show cellsDecode (.inEntry k (v.reverse ++ []))
            ("k" :: (k2 :: (msgCells v2 ++ cacheCells rest2)))
          = (cellsDecode (.inEntry k2 []) (msgCells v2 ++ cacheCells rest2)).map
              ((k, (v.reverse ++ []).reverse) :: ·) by
        simp [cellsDecode]]
      rw [h2]
      simp

/-- Joining a nonempty cell list starts with the first escaped cell. -/
theorem joinEsc_cons (c : List Char) (xs : List (List Char)) :
    ∃ t, joinEsc (c :: xs) = escChars c ++ t := by
  rcases xs with _ | ⟨c2, r⟩
  · exact ⟨[], by simp [joinEsc]⟩
  · exact ⟨';' :: joinEsc (c2 :: r), rfl⟩

/-- A nonempty mapping serializes to nonempty text. -/
theorem dump_cache_ne_nil (m : Cache) (hm : m ≠ []) : dump_cache m ≠ [] := by
  rcases m with _ | ⟨⟨k, v⟩, rest⟩
  · exact absurd rfl hm
  · unfold dump_cache
    rw [show cacheCells ((k, v) :: rest) = "k" :: k :: (msgCells v ++ cacheCells rest)
      from rfl]
    rw [List.map_cons]
    obtain ⟨t, ht⟩ := joinEsc_cons ("k".data) ((k :: (msgCells v ++ cacheCells rest)).map String.data)
    rw [ht]
    rw [show escChars "k".data = ['k'] from rfl]
    simp

/-- Parsing the serialized mapping restores it exactly. -/
theorem validate_dump_cache (m : Cache) (hm : m ≠ []) :
    validate_cache (dump_cache m) = some m := by
  unfold validate_cache dump_cache splitEsc
  have hcells : cacheCells m ≠ [] := by
    rcases m with _ | ⟨⟨k, v⟩, rest⟩
    · exact absurd rfl hm
    · simp [cacheCells]
  rw [show splitGo false [] (joinEsc ((cacheCells m).map String.data))
      = splitEsc (joinEsc ((cacheCells m).map String.data)) from rfl]
  rw [splitEsc_joinEsc _ (by simpa using hcells)]
  rw [Option.some_bind]
  rw [List.map_map]
  rw [show (String.mk ∘ String.data) = id from funext (fun s => rfl)]
  rw [List.map_id]
  exact cellsDecode_cacheCells m

/-! ## Helper lemmas: the recomputed signature is ASCII -/

/-- Hex characters are ASCII. -/
theorem hexChar_ascii (m : Nat) (h : m < 16) : (hexChar m).toNat < 128 := by
  interval_cases m <;> decide

/-- Big-endian byte decompositions produce byte values. -/
theorem beBytes_lt (n v : Nat) : ∀ x ∈ beBytes n v, x < 256 := by
  intro x hx
  simp only [beBytes, List.mem_map, List.mem_range] at hx
  obtain ⟨i, -, rfl⟩ := hx
  exact Nat.mod_lt _ (by omega)

/-- SHA-256 digests are byte lists. -/
theorem sha256_bytes_lt (msg : List Nat) : ∀ x ∈ sha256 msg, x < 256 := by
  intro x hx
  simp only [sha256, List.mem_flatten, List.mem_map] at hx
  obtain ⟨l, ⟨w, -, rfl⟩, hxl⟩ := hx
  exact beBytes_lt 4 w x hxl

/-- The hex rendering of a byte list is ASCII. -/
theorem hexDigest_ascii (bs : List Nat) (hb : ∀ x ∈ bs, x < 256) :
    asciiStr (hexDigest bs) = true := by
  unfold asciiStr hexDigest
  rw [show (String.mk ((bs.map (fun b => [hexChar (b / 16), hexChar (b % 16)])).flatten)).data
      = (bs.map (fun b => [hexChar (b / 16), hexChar (b % 16)])).flatten from rfl]
  rw [List.all_eq_true]
  intro c hc
  simp only [List.mem_flatten, List.mem_map] at hc
  obtain ⟨l, ⟨b, hbmem, rfl⟩, hcl⟩ := hc
  have hb256 := hb b hbmem
  simp only [List.mem_cons, List.not_mem_nil, or_false] at hcl
  rcases hcl with rfl | rfl
  · exact decide_eq_true (hexChar_ascii (b / 16) (by omega))
  · exact decide_eq_true (hexChar_ascii (b % 16) (by omega))

/-- The signature the verifier computes is always an ASCII string, so the
`TypeError` branch of `compare_digest` depends only on the header. -/
theorem my_signature_ascii (secret : List Nat) (timestamp : String) (cps : List Nat) :
    asciiStr (my_signature secret timestamp cps) = true := by
  have h2 := hexDigest_ascii (hmacSha256 secret (sigBaseBytes timestamp cps))
    (sha256_bytes_lt _)
  unfold my_signature
  unfold asciiStr at h2 ⊢
  rw [String.data_append, List.all_append, h2, Bool.and_true]
  decide

/-! ## Claim theorems -/

/-- C1 (counterexample): with secret `"s"`, timestamp `"0"` (fresh at
`now = 0`), body `[0x41]` (`"A"`) and the matching signature, changing the
single body byte to `0xC3` makes the verifier raise `UnicodeDecodeError`
instead of returning `false`: the claim that any single-byte body change
makes it *return false* fails. -/
theorem c1_single_byte_counterexample :
    verify_slack_request 0 "0" (expected_signature "0" [65] [115]) [195] [115]
      = Except.error PyErr.unicodeDecodeError := by
  rfl

/-- C1 (amended): for a fresh integer timestamp and a UTF-8-decodable body,
the verifier returns `true` exactly when the supplied signature equals
`"v0=" + hex(HMAC-SHA256(secret, "v0:" + timestamp + ":" + body))`; an ASCII
signature differing from that value yields `false`, a non-ASCII signature
header (reachable, because headers are decoded as latin-1) makes
`hmac.compare_digest` raise `TypeError`, and body or timestamp byte changes
may likewise raise instead of returning `false`. -/
theorem verify_ok_iff_expected_signature (now : Int) (timestamp : String) (t : Int)
    (h1 : pyInt timestamp = some t) (h2 : (now - t).natAbs ≤ 300)
    (body cps : List Nat) (h3 : utf8Decode body = some cps)
    (signature : String) (secret : List Nat) :
    (verify_slack_request now timestamp signature body secret = Except.ok true
      ↔ signature = expected_signature timestamp body secret)
    ∧ (asciiStr signature = true →
        signature ≠ expected_signature timestamp body secret →
        verify_slack_request now timestamp signature body secret = Except.ok false)
    ∧ (asciiStr signature = false →
        verify_slack_request now timestamp signature body secret
          = Except.error PyErr.typeError) := by
  have hexp : my_signature secret timestamp cps = expected_signature timestamp body secret := by
    unfold my_signature expected_signature sigBaseBytes
    rw [utf8Encode_of_decode h3]
  have hasc : asciiStr (expected_signature timestamp body secret) = true := by
    rw [← hexp]
    exact my_signature_ascii secret timestamp cps
  unfold verify_slack_request
  rw [h1]
  dsimp only
  rw [if_neg (by omega), h3]
  dsimp only
  rw [hexp]
  refine ⟨?_, ?_, ?_⟩
  · constructor
    · intro h
      unfold compare_digest at h
      rcases hsig : asciiStr signature with _ | _
      · rw [hasc, hsig] at h
        simp at h
      · rw [hasc, hsig] at h
        simp only [Bool.and_self, if_pos] at h
        have hb : (expected_signature timestamp body secret == signature) = true := by
          simpa using h
        exact (eq_of_beq hb).symm
    · rintro rfl
      unfold compare_digest
      rw [hasc]
      simp
  · intro hsig hne
    unfold compare_digest
    rw [hasc, hsig]
    simp only [Bool.and_self, if_pos]
    have : (expected_signature timestamp body secret == signature) = false := by
      rw [beq_eq_false_iff_ne]
      exact fun h => hne h.symm
    rw [this]
  · intro hsig
    unfold compare_digest
    rw [hasc, hsig]
    simp

/-- C1 (witness): a concrete fresh request with body `"hi"` and secret `"s"`
verifies under its matching signature. -/
theorem verify_ok_iff_expected_signature_witness :
    verify_slack_request 0 "0" (expected_signature "0" [104, 105] [115]) [104, 105] [115]
      = Except.ok true :=
  (verify_ok_iff_expected_signature 0 "0" 0 (by decide) (by decide) [104, 105] [104, 105]
    (by decide) (expected_signature "0" [104, 105] [115]) [115]).1.mpr rfl

/-- C2: on the empty timestamp header (and on a non-numeric one), the
verifier raises `ValueError` from `int(timestamp)` instead of returning
`false` as the claim states. -/
theorem malformed_timestamp_raises :
    verify_slack_request 0 "" "v0=sig" [104] [115] = Except.error PyErr.valueError
      ∧ verify_slack_request 0 "12a45" "v0=sig" [104] [115]
        = Except.error PyErr.valueError := by
  constructor <;> rfl

/-- C4: a timestamp parsing to an integer more than 300 seconds from now, in
either direction, is rejected with `false` before any signature work. -/
theorem stale_timestamp_rejected (now : Int) (timestamp : String) (t : Int)
    (h1 : pyInt timestamp = some t) (h2 : 300 < (now - t).natAbs) :
    ∀ (signature : String) (body secret : List Nat),
      verify_slack_request now timestamp signature body secret = Except.ok false := by
  intro signature body secret
  unfold verify_slack_request
  rw [h1]
  dsimp only
  rw [if_pos (by omega)]

/-- C4 (witness): at `now = 1000`, the timestamp `"0"` (701 seconds in the
past) and the future timestamp `"2000"` are both rejected. -/
theorem stale_timestamp_rejected_witness :
    verify_slack_request 1000 "0" "v0=sig" [104] [115] = Except.ok false
      ∧ verify_slack_request 1000 "2000" "v0=sig" [104] [115] = Except.ok false :=
  ⟨stale_timestamp_rejected 1000 "0" 0 (by decide) (by decide) "v0=sig" [104] [115],
   stale_timestamp_rejected 1000 "2000" 2000 (by decide) (by decide) "v0=sig" [104] [115]⟩

/-- C10: when the timestamp is fresh but the body bytes are not valid UTF-8,
the verifier raises `UnicodeDecodeError` from `body.decode()` rather than
returning a boolean. -/
theorem invalid_utf8_body_raises (now : Int) (timestamp : String) (t : Int)
    (h1 : pyInt timestamp = some t) (h2 : (now - t).natAbs ≤ 300)
    (body : List Nat) (h3 : utf8Decode body = none)
    (signature : String) (secret : List Nat) :
    verify_slack_request now timestamp signature body secret
      = Except.error PyErr.unicodeDecodeError := by
  unfold verify_slack_request
  rw [h1]
  dsimp only
  rw [if_neg (by omega), h3]

/-- C10 (witness): the single byte `0xFF` is not UTF-8 and makes a fresh
request raise. -/
theorem invalid_utf8_body_raises_witness :
    verify_slack_request 0 "0" "v0=sig" [255] [115]
      = Except.error PyErr.unicodeDecodeError :=
  invalid_utf8_body_raises 0 "0" 0 (by decide) (by decide) [255] (by decide) "v0=sig" [115]

/-- C3: a verified `app_mention` event with no `thread_ts`/`ts` (and one
with no `channel`) makes the endpoint raise `AssertionError` — which the
framework turns into an HTTP 500 — rather than acknowledging with a
200-class response as the claim states; no dispatch occurs. -/
theorem mention_missing_fields_raises :
    handle_slack_event ⟨"event_callback",
        some [("type", "app_mention"), ("channel", "C1")], none⟩
      = Except.error PyErr.assertionError
    ∧ handle_slack_event ⟨"event_callback",
        some [("type", "app_mention"), ("ts", "111.222")], none⟩
      = Except.error PyErr.assertionError := by
  constructor <;> rfl

/-- C5: for a verified mention, the conversation id handed to the dispatched
`handle_message` is the nested `thread_ts` when that field is present and
nonempty, and otherwise the nested `ts`. -/
theorem mention_conversation_id (e : List (String × String)) (ch : String)
    (c : Option String)
    (htype : getKey e "type" = some "app_mention")
    (hch : getKey e "channel" = some ch) :
    (∀ v, getKey e "thread_ts" = some v → v ≠ "" →
      handle_slack_event ⟨"event_callback", some e, c⟩
        = Except.ok (.ack, [.handleMessage ((getKey e "text").getD "") v ch]))
    ∧ (∀ w, getKey e "ts" = some w →
      getKey e "thread_ts" = none ∨ getKey e "thread_ts" = some "" →
      handle_slack_event ⟨"event_callback", some e, c⟩
        = Except.ok (.ack, [.handleMessage ((getKey e "text").getD "") w ch])) := by
  have hne : e ≠ [] := by
    intro h
    rw [h] at htype
    simp [getKey] at htype
  constructor
  · intro v hv hvne
    unfold handle_slack_event
    dsimp only
    rw [if_neg (by decide), if_pos ⟨rfl, hne⟩, if_pos htype]
    rw [show pyOrStr (getKey e "thread_ts") (getKey e "ts") = some v by
      rw [hv, pyOrStr, if_neg hvne]]
    rw [hch]
  · intro w hw hth
    unfold handle_slack_event
    dsimp only
    rw [if_neg (by decide), if_pos ⟨rfl, hne⟩, if_pos htype]
    rw [show pyOrStr (getKey e "thread_ts") (getKey e "ts") = some w by
      rcases hth with hth | hth
      · rw [hth, pyOrStr, hw]
      · rw [hth, pyOrStr, if_pos rfl, hw]]
    rw [hch]

/-- C5 (witness): a mention with `thread_ts` absent and `ts = "111.222"`
dispatches with conversation id `"111.222"`, as does one whose `thread_ts`
is present but empty. -/
theorem mention_conversation_id_witness :
    (handle_slack_event ⟨"event_callback",
        some [("type", "app_mention"), ("channel", "C9"), ("ts", "111.222"),
          ("text", "hello")], none⟩
      = Except.ok (.ack, [.handleMessage "hello" "111.222" "C9"]))
    ∧ (handle_slack_event ⟨"event_callback",
        some [("type", "app_mention"), ("channel", "C9"), ("thread_ts", ""),
          ("ts", "111.222"), ("text", "hello")], none⟩
      = Except.ok (.ack, [.handleMessage "hello" "111.222" "C9"])) :=
  ⟨(mention_conversation_id
      [("type", "app_mention"), ("channel", "C9"), ("ts", "111.222"), ("text", "hello")]
      "C9" none (by decide) (by decide)).2 "111.222" (by decide) (Or.inl (by decide)),
   (mention_conversation_id
      [("type", "app_mention"), ("channel", "C9"), ("thread_ts", ""), ("ts", "111.222"),
        ("text", "hello")]
      "C9" none (by decide) (by decide)).2 "111.222" (by decide) (Or.inr (by decide))⟩

/-- C9: a verified `url_verification` payload is answered with exactly its
challenge token, unchanged, and nothing is dispatched (so no cache update
can occur). -/
theorem handshake_echoes_challenge (c : Option String)
    (evt : Option (List (String × String))) :
    handle_slack_event ⟨"url_verification", evt, c⟩
      = Except.ok (.challenge c, []) := by
  unfold handle_slack_event
  rw [if_pos rfl]

/-- C6: saving any message mapping and loading it back yields an equal
mapping, and loading an empty cache file yields the empty mapping rather
than an error. -/
theorem cache_save_load_round_trip :
    (∀ m : Cache, load_message_cache (dump_cache m) = Except.ok m)
      ∧ load_message_cache [] = Except.ok [] := by
  constructor
  · intro m
    rcases eq_or_ne m [] with rfl | hm
    · rfl
    · unfold load_message_cache
      rw [if_neg (dump_cache_ne_nil m hm), validate_dump_cache m hm]
  · rfl

/-- C7: the save path is a truncating in-place write, not a temporary-file
rename: the empty file is among the durable states reachable by crashing
mid-save, and it loads as the empty mapping — neither the complete previous
mapping nor the complete new one. -/
theorem save_crash_not_atomic :
    [] ∈ saveCrashStates (dump_cache [("t", [⟨"user", "hi"⟩])])
        [("t", [⟨"user", "hi"⟩, ⟨"assistant", "yo"⟩])]
      ∧ load_message_cache [] = Except.ok []
      ∧ ([] : Cache) ≠ [("t", [⟨"user", "hi"⟩])]
      ∧ ([] : Cache) ≠ [("t", [⟨"user", "hi"⟩, ⟨"assistant", "yo"⟩])] := by
  refine ⟨?_, rfl, by decide, by decide⟩
  unfold saveCrashStates
  refine List.mem_cons_of_mem _ (List.mem_map.mpr ⟨0, ?_, rfl⟩)
  simp [save_message_cache]

/-- C8 (counterexample): with both calls appending to conversation `"t"`
(first call dispatched first: its read is scheduled first), the schedule in
which the second call's update runs before the first's leaves the two
message blocks in completion order, not call order. -/
theorem concurrent_append_order_counterexample :
    (runSched "t" [true, false, false, true]
        (taskSteps [⟨"user", "a"⟩]) (taskSteps [⟨"user", "b"⟩])
        ⟨[("t", [])], save_message_cache [("t", [])]⟩).history
      = [("t", [⟨"user", "b"⟩, ⟨"user", "a"⟩])]
    ∧ [(("t" : String), [(⟨"user", "b"⟩ : Message), ⟨"user", "a"⟩])]
      ≠ [("t", [⟨"user", "a"⟩, ⟨"user", "b"⟩])] := by
  constructor
  · rfl
  · decide

/-- C8 (amended): under every interleaving of two racing `handle_message`
calls for the same conversation, both calls' message blocks are present in
the final state — in the order the two update steps execute, with the prior
history in front — and the cache file holds exactly the serialized final
mapping; no update is lost, because each update re-reads and extends the
shared mapping and runs without suspension. -/
theorem concurrent_appends_both_present (ts : String) (m0 a b : List Message)
    (sched : List Bool) (hs : sched ∈ schedulesAB) :
    ((runSched ts sched (taskSteps a) (taskSteps b)
        ⟨[(ts, m0)], save_message_cache [(ts, m0)]⟩).history = [(ts, m0 ++ a ++ b)]
      ∨ (runSched ts sched (taskSteps a) (taskSteps b)
        ⟨[(ts, m0)], save_message_cache [(ts, m0)]⟩).history = [(ts, m0 ++ b ++ a)])
    ∧ (runSched ts sched (taskSteps a) (taskSteps b)
        ⟨[(ts, m0)], save_message_cache [(ts, m0)]⟩).file
      = save_message_cache ((runSched ts sched (taskSteps a) (taskSteps b)
        ⟨[(ts, m0)], save_message_cache [(ts, m0)]⟩).history) := by
  fin_cases hs <;>
    simp [runSched, taskSteps, applyStep, setKey, getKey, List.append_assoc]

/-- C8 (witness): a concrete run of the first-listed schedule keeps both
appended messages. -/
theorem concurrent_appends_both_present_witness :
    ((runSched "t" [true, true, false, false]
        (taskSteps [⟨"user", "a"⟩]) (taskSteps [⟨"user", "b"⟩])
        ⟨[("t", [])], save_message_cache [("t", [])]⟩).history
      = [("t", ([] : List Message) ++ [⟨"user", "a"⟩] ++ [⟨"user", "b"⟩])]
      ∨ (runSched "t" [true, true, false, false]
        (taskSteps [⟨"user", "a"⟩]) (taskSteps [⟨"user", "b"⟩])
        ⟨[("t", [])], save_message_cache [("t", [])]⟩).history
      = [("t", ([] : List Message) ++ [⟨"user", "b"⟩] ++ [⟨"user", "a"⟩])])
    ∧ (runSched "t" [true, true, false, false]
        (taskSteps [⟨"user", "a"⟩]) (taskSteps [⟨"user", "b"⟩])
        ⟨[("t", [])], save_message_cache [("t", [])]⟩).file
      = save_message_cache ((runSched "t" [true, true, false, false]
        (taskSteps [⟨"user", "a"⟩]) (taskSteps [⟨"user", "b"⟩])
        ⟨[("t", [])], save_message_cache [("t", [])]⟩).history) :=
  concurrent_appends_both_present "t" [] [⟨"user", "a"⟩] [⟨"user", "b"⟩]
    [true, true, false, false] (by decide)
